import Mathlib

/-!
Shallow embedding of the junction-aware CIGAR analysis and clipping engine of
the portcullis BAM filter (src/src/bam_filter.cc and
src/lib/include/portcullis/bam/bam_alignment.hpp), together with theorems
settling the frozen claims about it.
-/

namespace Portcullis

/-- CIGAR operation kinds, mirroring the character constants
`BAM_CIGAR_MATCH_CHAR` ('M'), `BAM_CIGAR_INS_CHAR` ('I'), `BAM_CIGAR_DEL_CHAR`
('D'), `BAM_CIGAR_REFSKIP_CHAR` ('N'), `BAM_CIGAR_SOFTCLIP_CHAR` ('S'),
`BAM_CIGAR_HARDCLIP_CHAR` ('H'), `BAM_CIGAR_PAD_CHAR` ('P'),
`BAM_CIGAR_EQUAL_CHAR` ('='), `BAM_CIGAR_DIFF_CHAR` ('X') and
`BAM_CIGAR_BACK_CHAR` ('B') of bam_alignment.hpp. -/
inductive CigarType where
  | M
  | Ins
  | Del
  | RefSkip
  | SoftClip
  | HardClip
  | Pad
  | Equal
  | Diff
  | Back
deriving DecidableEq, Repr

/-- Embeds `CigarOp::opConsumesQuery` (bam_alignment.hpp, lines 75-86):
the switch returns true for M, I, S, =, X and false otherwise. -/
def opConsumesQuery : CigarType → Bool
  | .M => true
  | .Ins => true
  | .SoftClip => true
  | .Equal => true
  | .Diff => true
  | _ => false

/-- Embeds `CigarOp::opConsumesReference` (bam_alignment.hpp, lines 88-99):
the switch returns true for M, D, N, =, X and false otherwise. -/
def opConsumesReference : CigarType → Bool
  | .M => true
  | .Del => true
  | .RefSkip => true
  | .Equal => true
  | .Diff => true
  | _ => false

/-- Embeds `struct CigarOp` (bam_alignment.hpp): a kind and a length.
Lengths are non-negative (the data model fixes `length` as a non-negative
integer), so we use `Nat`. -/
structure CigarOp where
  type : CigarType
  length : Nat
deriving DecidableEq, Repr

/-- The fields of `BamAlignment` (bam_alignment.hpp) that the filter logic
reads: the reference id, the 0-based leftmost position and the CIGAR
operation sequence. -/
structure BamAlignment where
  refId : Int
  position : Int
  cigar : List CigarOp
deriving DecidableEq, Repr

/-- A junction lookup key: `(reference id, intron start, intron end)`,
both coordinates 0-based inclusive, exactly the equality key of `Intron`. -/
abbrev Junction := Int × Int × Int

/-- Modelled from the spec: the `JunctionSystem` class is not among the
sources (only its callers are); section 4.2 describes it as an
immutable-after-construction exact-match lookup keyed by
`(refId, start, end)` where presence means trusted. We model it as the
finite collection of trusted keys. -/
abbrev JunctionSys := List Junction

/-- Modelled from the spec: `JunctionSystem::getJunction` returning non-null
is exact-key membership of the derived `(refId, start, end)` triple in the
trusted collection (section 4.2: no partial or overlap matching). -/
def containsJunction (js : JunctionSys) (j : Junction) : Bool :=
  js.any (fun x => decide (x = j))

/-- The clip-mode configuration enumeration `ClipMode` with values
HARD, SOFT and COMPLETE (bam_filter.hpp interface as used by
bam_filter.cc). -/
inductive ClipMode where
  | HARD
  | SOFT
  | COMPLETE
deriving DecidableEq, Repr

/-- Embeds the `modOp` selection of `clipMSR` (bam_filter.cc, lines
113-115): HARD gives the hard-clip character, SOFT the soft-clip character,
anything else the deletion character. -/
def modOpFor : ClipMode → CigarType
  | .HARD => .HardClip
  | .SOFT => .SoftClip
  | .COMPLETE => .Del

/-- Modelled from the spec: `BamAlignment::isSplicedRead` is declared in
bam_alignment.hpp (line 310) but its body is not among the sources;
section 4.3: true iff the operation sequence contains at least one
ReferenceSkip. -/
def isSplicedRead (al : BamAlignment) : Bool :=
  al.cigar.any (fun o => decide (o.type = .RefSkip))

/-- Modelled from the spec: `BamAlignment::getNbJunctionsInRead` is declared
in bam_alignment.hpp (line 312) but its body is not among the sources;
section 4.3: the count of ReferenceSkip operations. -/
def getNbJunctionsInRead (al : BamAlignment) : Nat :=
  (al.cigar.filter (fun o => decide (o.type = .RefSkip))).length

/-- Embeds `BamAlignment::isMultiplySplicedRead` (bam_alignment.hpp, lines
314-316): more than one junction in the read. -/
def isMultiplySplicedRead (al : BamAlignment) : Bool :=
  getNbJunctionsInRead al > 1

/-- The loop of `BamFilter::containsJunctionInSystem` (bam_filter.cc, lines
83-97): walk the operations with the running cursor `lEnd`; at a
ReferenceSkip derive the intron `(refId, lEnd, lEnd + length - 1)` and
return true on an index hit, otherwise keep walking; any other
reference-consuming operation advances `lEnd` by its length. -/
def containsAux (refId : Int) (js : JunctionSys) : Int → List CigarOp → Bool
  | _, [] => false
  | lEnd, op :: rest =>
    if op.type = .RefSkip then
      let rStart := lEnd + (op.length : Int)
      if containsJunction js (refId, lEnd, rStart - 1) then true
      else containsAux refId js lEnd rest
    else if opConsumesReference op.type then
      containsAux refId js (lEnd + (op.length : Int)) rest
    else
      containsAux refId js lEnd rest

/-- Embeds `BamFilter::containsJunctionInSystem` (bam_filter.cc, lines
75-99): the cursor starts at the alignment position and the walk returns
false when no derived junction is found in the junction system. -/
def containsJunctionInSystem (al : BamAlignment) (js : JunctionSys) : Bool :=
  containsAux al.refId js al.position al.cigar

/-- The sequence of junctions derived by the cursor walk shared by
`containsJunctionInSystem` and `clipMSR`: each ReferenceSkip produces
`(refId, lEnd, lEnd + length - 1)` at the current cursor, and only
reference-consuming operations other than ReferenceSkip advance the cursor
(the REFSKIP branch of both loops never updates `lEnd`). -/
def derivedJunctionsAux (refId : Int) : Int → List CigarOp → List Junction
  | _, [] => []
  | lEnd, op :: rest =>
    if op.type = .RefSkip then
      (refId, lEnd, lEnd + (op.length : Int) - 1) :: derivedJunctionsAux refId lEnd rest
    else if opConsumesReference op.type then
      derivedJunctionsAux refId (lEnd + (op.length : Int)) rest
    else
      derivedJunctionsAux refId lEnd rest

/-- All junctions the code derives from an alignment. -/
def derivedJunctions (al : BamAlignment) : List Junction :=
  derivedJunctionsAux al.refId al.position al.cigar

/-- Embeds the inner clipping loops of `clipMSR`
(`for (size_t j = opStart; j < i; j++) modifiedAlignment->setCigarOpAt(j,
CigarOp(modOp, al.getCigarOpAt(j).length));`, bam_filter.cc lines 131-133
and 143-145): every index `j` of `cur` with `a <= j < b` is replaced by a
`CigarOp` whose kind is `modOp` and whose length is read from the original
alignment `orig` at `j`; the index argument threads the position of the
head of `cur`. -/
def setKinds (modOp : CigarType) (orig : List CigarOp) (a b : Nat) :
    Nat → List CigarOp → List CigarOp
  | _, [] => []
  | j, c :: rest =>
    (if a ≤ j ∧ j < b then CigarOp.mk modOp (orig.getD j (CigarOp.mk .M 0)).length else c)
      :: setKinds modOp orig a b (j + 1) rest

/-- The mutable state of the `clipMSR` loop (bam_filter.cc lines 105-112):
the reference cursor `lEnd`, the start index `opStart` of the current
untested span, the `lastGood` and `ab` flags, and the operation sequence of
the modified alignment copy. -/
structure ClipState where
  lEnd : Int
  opStart : Nat
  lastGood : Bool
  ab : Bool
  modCigar : List CigarOp
deriving DecidableEq, Repr

/-- One iteration of the `clipMSR` loop body (bam_filter.cc lines 116-141)
at operation index `i`: a ReferenceSkip derives the intron at the current
cursor and either records a trusted hit (`ab := false`, `lastGood := true`)
or rewrites the span `[opStart, i)` (started at `i` itself when `lastGood`
held) to the clip kind, in both cases resetting `opStart` to `i + 1`; any
other reference-consuming operation advances the cursor. -/
def clipStep (refId : Int) (js : JunctionSys) (modOp : CigarType)
    (orig : List CigarOp) (i : Nat) (op : CigarOp) (st : ClipState) : ClipState :=
  if op.type = .RefSkip then
    let rStart := st.lEnd + (op.length : Int)
    if containsJunction js (refId, st.lEnd, rStart - 1) then
      { st with ab := false, lastGood := true, opStart := i + 1 }
    else
      let a := if st.lastGood then i else st.opStart
      { st with modCigar := setKinds modOp orig a i 0 st.modCigar,
                lastGood := false, opStart := i + 1 }
  else if opConsumesReference op.type then
    { st with lEnd := st.lEnd + (op.length : Int) }
  else
    st

/-- The `for (size_t i = 0; ...)` loop of `clipMSR` (bam_filter.cc lines
116-141), expressed as structural recursion over the remaining operations,
threading the index of the head. -/
def clipLoop (refId : Int) (js : JunctionSys) (modOp : CigarType)
    (orig : List CigarOp) : Nat → List CigarOp → ClipState → ClipState
  | _, [], st => st
  | i, op :: rest, st =>
    clipLoop refId js modOp orig (i + 1) rest (clipStep refId js modOp orig i op st)

/-- The state of `clipMSR` after its main loop: the initial state has the
cursor at the alignment position, `opStart = 0`, `lastGood = false`,
`ab = true`, and the modified alignment starting as a copy of the input
(`make_shared<BamAlignment>(al)`, bam_filter.cc line 112). -/
def clipFinalState (al : BamAlignment) (js : JunctionSys) (mode : ClipMode) : ClipState :=
  clipLoop al.refId js (modOpFor mode) al.cigar 0 al.cigar
    (ClipState.mk al.position 0 false true al.cigar)

/-- Embeds `BamFilter::clipMSR` (bam_filter.cc lines 101-149): runs the
loop, then, when the last evaluated junction was not trusted, rewrites the
trailing span `[opStart, nbCigarOps)` to the clip kind (lines 142-146);
returns the modified alignment copy together with the `allBad` flag. -/
def clipMSR (al : BamAlignment) (js : JunctionSys) (mode : ClipMode) :
    BamAlignment × Bool :=
  let st := clipFinalState al js mode
  let finalCigar :=
    if st.lastGood then st.modCigar
    else setKinds (modOpFor mode) al.cigar st.opStart al.cigar.length 0 st.modCigar
  ({ al with cigar := finalCigar }, st.ab)

/-- The record sinks of the filtering pipeline: the primary output writer,
and the two auxiliary writers for modified and unmodified MSRs
(bam_filter.cc lines 176-186). -/
inductive Sink where
  | primary
  | modified
  | unmodified
deriving DecidableEq, Repr

/-- Embeds the per-record routing of `BamFilter::filter` (bam_filter.cc
lines 190-222) as the list of (sink, record) writes that one incoming
alignment produces: unspliced reads pass through; spliced reads in
COMPLETE mode or with a single junction pass through exactly when the
containment check succeeds; otherwise the read is an MSR in HARD or SOFT
mode, and unless `allBad` the clipped copy goes to the primary sink, with
the clipped and original copies also sent to the auxiliary sinks when
`saveMSRs` is set. -/
def filterRecord (mode : ClipMode) (saveMSRs : Bool) (js : JunctionSys)
    (al : BamAlignment) : List (Sink × BamAlignment) :=
  if isSplicedRead al then
    if mode = .COMPLETE ∨ ¬ isMultiplySplicedRead al then
      if containsJunctionInSystem al js then [(.primary, al)] else []
    else
      let r := clipMSR al js mode
      if r.2 then []
      else
        (.primary, r.1) ::
          (if saveMSRs then [(.modified, r.1), (.unmodified, al)] else [])
  else
    [(.primary, al)]

/-- Sum of the lengths of the reference-consuming operations of a CIGAR
sequence: the derived `alignedLength` of the data model (the span
`end - start + 1`). -/
def alignedLength : List CigarOp → Nat
  | [] => 0
  | op :: rest => (if opConsumesReference op.type then op.length else 0) + alignedLength rest

/-- Number of ReferenceSkip operations in a sequence. -/
def skipCount : List CigarOp → Nat
  | [] => 0
  | op :: rest => (if op.type = .RefSkip then 1 else 0) + skipCount rest

/-- Cursor advance of the code over a sequence of operations: the sum of
the lengths of the reference-consuming operations other than ReferenceSkip
(the REFSKIP branch of both walks never updates `lEnd`). -/
def refAdvance : List CigarOp → Int
  | [] => 0
  | op :: rest =>
    (if op.type ≠ .RefSkip ∧ opConsumesReference op.type then (op.length : Int) else 0)
      + refAdvance rest

/-- Following the spec claim's words, for comparison with `refAdvance`:
cursor advance counting every reference-consuming operation as defined in
the data model, ReferenceSkip included. -/
def specRefAdvance : List CigarOp → Int
  | [] => 0
  | op :: rest =>
    (if opConsumesReference op.type then (op.length : Int) else 0) + specRefAdvance rest

/-- Invariant of the `clipMSR` loop after the first `i` operations have
been processed: the modified sequence has the input's shape with each
entry either untouched or kind-replaced by `modOp` at unchanged length,
`opStart` never exceeds the next index, the pending span `[opStart, i)`
holds no ReferenceSkip, and entries at ReferenceSkip positions are
untouched. -/
structure LoopInv (modOp : CigarType) (orig : List CigarOp) (i : Nat) (st : ClipState) : Prop where
  len : st.modCigar.length = orig.length
  ptwise : ∀ k, st.modCigar.get? k = orig.get? k ∨
    ∃ c, orig.get? k = some c ∧ st.modCigar.get? k = some (CigarOp.mk modOp c.length)
  startLe : st.opStart ≤ i
  noSkip : ∀ k c, st.opStart ≤ k → k < i → orig.get? k = some c → ¬ c.type = CigarType.RefSkip
  skipKept : ∀ k c, orig.get? k = some c → c.type = CigarType.RefSkip →
    st.modCigar.get? k = some c

theorem setKinds_length (modOp : CigarType) (orig : List CigarOp) (a b : Nat) :
    ∀ (cur : List CigarOp) (j : Nat), (setKinds modOp orig a b j cur).length = cur.length
  | [], _ => rfl
  | _ :: rest, j => by
    simp only [setKinds, List.length_cons, setKinds_length modOp orig a b rest (j + 1)]

theorem setKinds_get? (modOp : CigarType) (orig : List CigarOp) (a b : Nat) :
    ∀ (cur : List CigarOp) (j k : Nat),
      (setKinds modOp orig a b j cur).get? k
        = if a ≤ j + k ∧ j + k < b
          then (cur.get? k).map
            (fun _ => CigarOp.mk modOp (orig.getD (j + k) (CigarOp.mk .M 0)).length)
          else cur.get? k
  | [], j, k => by
    simp only [setKinds, List.get?_nil, Option.map_none]
    split <;> rfl
  | c :: rest, j, 0 => by
    simp only [setKinds, List.get?_cons_zero, Nat.add_zero, Option.map_some]
    split <;> rfl
  | c :: rest, j, k + 1 => by
    have harith : j + (k + 1) = (j + 1) + k := by omega
    simp only [setKinds, List.get?_cons_succ,
      setKinds_get? modOp orig a b rest (j + 1) k, harith]

theorem containsAux_eq_any (refId : Int) (js : JunctionSys) :
    ∀ (ops : List CigarOp) (lEnd : Int),
      containsAux refId js lEnd ops
        = (derivedJunctionsAux refId lEnd ops).any (containsJunction js)
  | [], _ => rfl
  | op :: rest, lEnd => by
    by_cases h : op.type = CigarType.RefSkip
    · simp only [containsAux, derivedJunctionsAux, if_pos h, List.any_cons]
      by_cases hj : containsJunction js (refId, lEnd, lEnd + (op.length : Int) - 1) = true
      · simp [hj]
      · simp only [Bool.not_eq_true] at hj
        simp [hj, containsAux_eq_any refId js rest lEnd]
    · by_cases hc : opConsumesReference op.type = true
      · simp only [containsAux, derivedJunctionsAux, if_neg h, if_pos hc,
          containsAux_eq_any refId js rest (lEnd + (op.length : Int))]
      · simp only [Bool.not_eq_true] at hc
        simp only [containsAux, derivedJunctionsAux, if_neg h, hc, Bool.false_eq_true,
          if_false, containsAux_eq_any refId js rest lEnd]

theorem containsAux_append_of_true (refId : Int) (js : JunctionSys) :
    ∀ (ops₁ : List CigarOp) (lEnd : Int) (ops₂ : List CigarOp),
      containsAux refId js lEnd ops₁ = true →
      containsAux refId js lEnd (ops₁ ++ ops₂) = true
  | [], _, _, h => by simp [containsAux] at h
  | op :: rest, lEnd, ops₂, h => by
    by_cases hskip : op.type = CigarType.RefSkip
    · simp only [containsAux, if_pos hskip] at h ⊢
      by_cases hj : containsJunction js
          (refId, lEnd, lEnd + (op.length : Int) - 1) = true
      · simp [hj]
      · simp only [Bool.not_eq_true] at hj
        simp only [hj, Bool.false_eq_true, if_false] at h ⊢
        exact containsAux_append_of_true refId js rest lEnd ops₂ h
    · by_cases hc : opConsumesReference op.type = true
      · simp only [containsAux, if_neg hskip, if_pos hc] at h ⊢
        exact containsAux_append_of_true refId js rest (lEnd + (op.length : Int)) ops₂ h
      · simp only [Bool.not_eq_true] at hc
        simp only [containsAux, if_neg hskip, hc, Bool.false_eq_true, if_false] at h ⊢
        exact containsAux_append_of_true refId js rest lEnd ops₂ h

theorem derivedJunctionsAux_nth (refId : Int) :
    ∀ (pre : List CigarOp) (lEnd : Int) (op : CigarOp) (post : List CigarOp),
      op.type = CigarType.RefSkip →
      (derivedJunctionsAux refId lEnd (pre ++ op :: post)).get? (skipCount pre)
        = some (refId, lEnd + refAdvance pre,
                lEnd + refAdvance pre + (op.length : Int) - 1)
  | [], lEnd, op, post, h => by
    simp [derivedJunctionsAux, skipCount, refAdvance, h]
  | p :: pre', lEnd, op, post, h => by
    have hcons : (p :: pre') ++ op :: post = p :: (pre' ++ op :: post) := rfl
    rw [hcons]
    by_cases hp : p.type = CigarType.RefSkip
    · have IH := derivedJunctionsAux_nth refId pre' lEnd op post h
      have hnc : ¬ (p.type ≠ CigarType.RefSkip ∧ opConsumesReference p.type = true) :=
        fun hh => hh.1 hp
      simp only [derivedJunctionsAux, if_pos hp, skipCount, if_pos hp, refAdvance, if_neg hnc,
        Nat.one_add, List.get?_cons_succ, zero_add]
      exact IH
    · by_cases hc : opConsumesReference p.type = true
      · have IH := derivedJunctionsAux_nth refId pre' (lEnd + (p.length : Int)) op post h
        simp only [derivedJunctionsAux, if_neg hp, if_pos hc, skipCount, refAdvance,
          if_neg hp, if_pos (show p.type ≠ CigarType.RefSkip ∧ opConsumesReference p.type = true
            from ⟨hp, hc⟩), Nat.zero_add, zero_add, IH, Option.some.injEq, Prod.mk.injEq]
        refine ⟨trivial, by ring, by ring⟩
      · simp only [Bool.not_eq_true] at hc
        have IH := derivedJunctionsAux_nth refId pre' lEnd op post h
        have hcF : ¬ opConsumesReference p.type = true := by simp [hc]
        have hnc : ¬ (p.type ≠ CigarType.RefSkip ∧ opConsumesReference p.type = true) :=
          fun hh => hcF hh.2
        simp only [derivedJunctionsAux, if_neg hp, if_neg hcF, skipCount, if_neg hp,
          refAdvance, if_neg hnc, Nat.zero_add, zero_add]
        exact IH

theorem clipStep_not_skip (refId : Int) (js : JunctionSys) (modOp : CigarType)
    (orig : List CigarOp) (i : Nat) (op : CigarOp) (st : ClipState)
    (h : ¬ op.type = CigarType.RefSkip) :
    (clipStep refId js modOp orig i op st).modCigar = st.modCigar ∧
    (clipStep refId js modOp orig i op st).opStart = st.opStart ∧
    (clipStep refId js modOp orig i op st).ab = st.ab ∧
    (clipStep refId js modOp orig i op st).lastGood = st.lastGood ∧
    (clipStep refId js modOp orig i op st).lEnd
      = (if opConsumesReference op.type then st.lEnd + (op.length : Int) else st.lEnd) := by
  simp only [clipStep, if_neg h]
  split <;> simp_all

theorem clipStep_skip_trusted (refId : Int) (js : JunctionSys) (modOp : CigarType)
    (orig : List CigarOp) (i : Nat) (op : CigarOp) (st : ClipState)
    (h : op.type = CigarType.RefSkip)
    (hj : containsJunction js (refId, st.lEnd, st.lEnd + (op.length : Int) - 1) = true) :
    clipStep refId js modOp orig i op st
      = { st with ab := false, lastGood := true, opStart := i + 1 } := by
  simp only [clipStep, if_pos h, hj, if_true]

theorem clipStep_skip_untrusted (refId : Int) (js : JunctionSys) (modOp : CigarType)
    (orig : List CigarOp) (i : Nat) (op : CigarOp) (st : ClipState)
    (h : op.type = CigarType.RefSkip)
    (hj : ¬ containsJunction js (refId, st.lEnd, st.lEnd + (op.length : Int) - 1) = true) :
    clipStep refId js modOp orig i op st
      = { st with
          modCigar := setKinds modOp orig (if st.lastGood then i else st.opStart) i 0 st.modCigar,
          lastGood := false, opStart := i + 1 } := by
  simp only [clipStep, if_pos h, if_neg hj]

theorem clipStep_inv (refId : Int) (js : JunctionSys) (modOp : CigarType)
    (orig : List CigarOp) (i : Nat) (op : CigarOp) (st : ClipState)
    (hop : orig.get? i = some op) (hinv : LoopInv modOp orig i st) :
    LoopInv modOp orig (i + 1) (clipStep refId js modOp orig i op st) := by
  have hilt : i < orig.length := List.get?_eq_some.mp hop |>.1
  by_cases hskip : op.type = CigarType.RefSkip
  · by_cases hj : containsJunction js
        (refId, st.lEnd, st.lEnd + (op.length : Int) - 1) = true
    · rw [clipStep_skip_trusted refId js modOp orig i op st hskip hj]
      exact ⟨hinv.len, hinv.ptwise, Nat.le_refl _,
        fun k c hk1 hk2 _ _ => absurd (Nat.lt_of_le_of_lt hk1 hk2) (Nat.lt_irrefl _),
        hinv.skipKept⟩
    · rw [clipStep_skip_untrusted refId js modOp orig i op st hskip hj]
      set a := if st.lastGood then i else st.opStart with ha
      have haLe : a ≤ i := by
        rw [ha]; split
        · exact Nat.le_refl _
        · exact hinv.startLe
      have hrange : ∀ k c, a ≤ k → k < i → orig.get? k = some c →
          ¬ c.type = CigarType.RefSkip := by
        intro k c hk1 hk2 hkc
        rw [ha] at hk1
        by_cases hg : st.lastGood
        · rw [if_pos hg] at hk1; exact absurd (Nat.lt_of_le_of_lt hk1 hk2) (Nat.lt_irrefl _)
        · rw [if_neg hg] at hk1; exact hinv.noSkip k c hk1 hk2 hkc
      refine ⟨?_, ?_, Nat.le_refl _, ?_, ?_⟩
      · simpa [setKinds_length] using hinv.len
      · intro k
        rw [setKinds_get? modOp orig a i st.modCigar 0 k]
        simp only [Nat.zero_add]
        by_cases hk : a ≤ k ∧ k < i
        · rw [if_pos hk]
          have hklt : k < orig.length := Nat.lt_trans hk.2 hilt
          obtain ⟨c, hc⟩ : ∃ x, orig.get? k = some x :=
            ⟨orig.get ⟨k, hklt⟩, List.get?_eq_get hklt⟩
          have hmk : k < st.modCigar.length := by rw [hinv.len]; exact hklt
          obtain ⟨c₂, hc₂⟩ : ∃ x, st.modCigar.get? k = some x :=
            ⟨st.modCigar.get ⟨k, hmk⟩, List.get?_eq_get hmk⟩
          right
          refine ⟨c, hc, ?_⟩
          rw [hc₂]
          simp only [Option.map_some']
          have hc' : orig[k]? = some c := by rw [← List.get?_eq_getElem?]; exact hc
          have : orig.getD k (CigarOp.mk .M 0) = c := by
            simp [List.getD, hc']
          rw [this]
        · rw [if_neg hk]; exact hinv.ptwise k
      · intro k c hk1 hk2 _
        exact absurd (Nat.lt_of_le_of_lt hk1 hk2) (Nat.lt_irrefl _)
      · intro k c hkc hct
        rw [setKinds_get? modOp orig a i st.modCigar 0 k]
        simp only [Nat.zero_add]
        have : ¬ (a ≤ k ∧ k < i) := fun hk => hrange k c hk.1 hk.2 hkc hct
        rw [if_neg this]
        exact hinv.skipKept k c hkc hct
  · obtain ⟨hm, hs, _, _, _⟩ := clipStep_not_skip refId js modOp orig i op st hskip
    refine ⟨hm ▸ hinv.len, fun k => hm ▸ hinv.ptwise k, hs ▸ Nat.le_succ_of_le hinv.startLe,
      ?_, fun k c hkc hct => hm ▸ hinv.skipKept k c hkc hct⟩
    intro k c hk1 hk2 hkc
    rw [hs] at hk1
    rcases Nat.lt_succ_iff_lt_or_eq.mp hk2 with hk2' | hk2'
    · exact hinv.noSkip k c hk1 hk2' hkc
    · subst hk2'
      rw [hop] at hkc
      cases hkc
      exact hskip

theorem clipLoop_inv (refId : Int) (js : JunctionSys) (modOp : CigarType)
    (orig : List CigarOp) :
    ∀ (rest : List CigarOp) (i : Nat) (st : ClipState),
      rest = orig.drop i → LoopInv modOp orig i st →
      LoopInv modOp orig (i + rest.length) (clipLoop refId js modOp orig i rest st)
  | [], i, st, _, hinv => by simpa using hinv
  | op :: rest', i, st, hdrop, hinv => by
    have hop : orig.get? i = some op := by
      have h0 : (orig.drop i)[0]? = orig[i + 0]? := List.getElem?_drop orig i 0
      rw [← hdrop] at h0
      simp only [List.getElem?_cons_zero, Nat.add_zero] at h0
      rw [List.get?_eq_getElem?]
      exact h0.symm
    have hdrop' : rest' = orig.drop (i + 1) := by
      have h1 : orig.drop (i + 1) = (orig.drop i).drop 1 := by
        rw [List.drop_drop]
      rw [h1, ← hdrop]
      rfl
    have hstep := clipStep_inv refId js modOp orig i op st hop hinv
    have hrec := clipLoop_inv refId js modOp orig rest' (i + 1)
      (clipStep refId js modOp orig i op st) hdrop' hstep
    have harith : (i + 1) + rest'.length = i + (op :: rest').length := by
      simp [List.length_cons]; omega
    rw [harith] at hrec
    exact hrec

theorem clipLoop_ab (refId : Int) (js : JunctionSys) (modOp : CigarType)
    (orig : List CigarOp) :
    ∀ (rest : List CigarOp) (i : Nat) (st : ClipState),
      (clipLoop refId js modOp orig i rest st).ab
        = (st.ab && !((derivedJunctionsAux refId st.lEnd rest).any (containsJunction js)))
  | [], _, st => by simp [clipLoop, derivedJunctionsAux]
  | op :: rest', i, st => by
    rw [show clipLoop refId js modOp orig i (op :: rest') st
      = clipLoop refId js modOp orig (i + 1) rest' (clipStep refId js modOp orig i op st)
      from rfl]
    rw [clipLoop_ab refId js modOp orig rest' (i + 1) (clipStep refId js modOp orig i op st)]
    by_cases hskip : op.type = CigarType.RefSkip
    · by_cases hj : containsJunction js
          (refId, st.lEnd, st.lEnd + (op.length : Int) - 1) = true
      · rw [clipStep_skip_trusted refId js modOp orig i op st hskip hj]
        simp [derivedJunctionsAux, hskip, hj]
      · rw [clipStep_skip_untrusted refId js modOp orig i op st hskip hj]
        simp only [Bool.not_eq_true] at hj
        simp [derivedJunctionsAux, hskip, hj]
    · obtain ⟨_, _, hab, _, hlEnd⟩ := clipStep_not_skip refId js modOp orig i op st hskip
      rw [hab, hlEnd]
      by_cases hc : opConsumesReference op.type = true
      · simp [derivedJunctionsAux, hskip, hc]
      · simp only [Bool.not_eq_true] at hc
        simp [derivedJunctionsAux, hskip, hc]

theorem clipFinalState_inv (al : BamAlignment) (js : JunctionSys) (mode : ClipMode) :
    LoopInv (modOpFor mode) al.cigar al.cigar.length (clipFinalState al js mode) := by
  have h0 : LoopInv (modOpFor mode) al.cigar 0
      (ClipState.mk al.position 0 false true al.cigar) :=
    ⟨rfl, fun _ => Or.inl rfl, Nat.le_refl 0,
      fun k _ _ h2 _ => absurd h2 (Nat.not_lt_zero k),
      fun _ _ hkc _ => hkc⟩
  have h := clipLoop_inv al.refId js (modOpFor mode) al.cigar al.cigar 0
    (ClipState.mk al.position 0 false true al.cigar) (by simp) h0
  simpa [clipFinalState] using h

theorem setKinds_ptwise (modOp : CigarType) (orig : List CigarOp) (a b : Nat)
    (cur : List CigarOp) (hlen : cur.length = orig.length) (hb : b ≤ orig.length)
    (hpt : ∀ k, cur.get? k = orig.get? k ∨
      ∃ c, orig.get? k = some c ∧ cur.get? k = some (CigarOp.mk modOp c.length)) :
    ∀ k, (setKinds modOp orig a b 0 cur).get? k = orig.get? k ∨
      ∃ c, orig.get? k = some c ∧
        (setKinds modOp orig a b 0 cur).get? k = some (CigarOp.mk modOp c.length) := by
  intro k
  rw [setKinds_get? modOp orig a b cur 0 k]
  simp only [Nat.zero_add]
  by_cases hk : a ≤ k ∧ k < b
  · rw [if_pos hk]
    have hklt : k < orig.length := Nat.lt_of_lt_of_le hk.2 hb
    obtain ⟨c, hc⟩ : ∃ x, orig.get? k = some x :=
      ⟨orig.get ⟨k, hklt⟩, List.get?_eq_get hklt⟩
    have hmk : k < cur.length := by rw [hlen]; exact hklt
    obtain ⟨c₂, hc₂⟩ : ∃ x, cur.get? k = some x := ⟨cur.get ⟨k, hmk⟩, List.get?_eq_get hmk⟩
    right
    refine ⟨c, hc, ?_⟩
    rw [hc₂]
    simp only [Option.map_some']
    have hc' : orig[k]? = some c := by rw [← List.get?_eq_getElem?]; exact hc
    have : orig.getD k (CigarOp.mk .M 0) = c := by simp [List.getD, hc']
    rw [this]
  · rw [if_neg hk]
    exact hpt k

theorem clipMSR_cigar_eq (al : BamAlignment) (js : JunctionSys) (mode : ClipMode) :
    (clipMSR al js mode).1.cigar
      = (if (clipFinalState al js mode).lastGood then (clipFinalState al js mode).modCigar
         else setKinds (modOpFor mode) al.cigar (clipFinalState al js mode).opStart
           al.cigar.length 0 (clipFinalState al js mode).modCigar) := rfl

theorem clipMSR_cigar_len (al : BamAlignment) (js : JunctionSys) (mode : ClipMode) :
    (clipMSR al js mode).1.cigar.length = al.cigar.length := by
  have hinv := clipFinalState_inv al js mode
  rw [clipMSR_cigar_eq]
  split
  · exact hinv.len
  · rw [setKinds_length]
    exact hinv.len

theorem clipMSR_cigar_ptwise (al : BamAlignment) (js : JunctionSys) (mode : ClipMode) :
    ∀ k, (clipMSR al js mode).1.cigar.get? k = al.cigar.get? k ∨
      ∃ c, al.cigar.get? k = some c ∧
        (clipMSR al js mode).1.cigar.get? k = some (CigarOp.mk (modOpFor mode) c.length) := by
  have hinv := clipFinalState_inv al js mode
  intro k
  rw [clipMSR_cigar_eq]
  split
  · exact hinv.ptwise k
  · exact setKinds_ptwise (modOpFor mode) al.cigar (clipFinalState al js mode).opStart
      al.cigar.length (clipFinalState al js mode).modCigar hinv.len (Nat.le_refl _)
      hinv.ptwise k

theorem clipMSR_skip_kept (al : BamAlignment) (js : JunctionSys) (mode : ClipMode) :
    ∀ k c, al.cigar.get? k = some c → c.type = CigarType.RefSkip →
      (clipMSR al js mode).1.cigar.get? k = some c := by
  have hinv := clipFinalState_inv al js mode
  intro k c hkc hct
  rw [clipMSR_cigar_eq]
  split
  · exact hinv.skipKept k c hkc hct
  · rw [setKinds_get?]
    simp only [Nat.zero_add]
    have hnot : ¬ ((clipFinalState al js mode).opStart ≤ k ∧ k < al.cigar.length) :=
      fun hk => hinv.noSkip k c hk.1 hk.2 hkc hct
    rw [if_neg hnot]
    exact hinv.skipKept k c hkc hct

theorem clipMSR_allBad_eq (al : BamAlignment) (js : JunctionSys) (mode : ClipMode) :
    (clipMSR al js mode).2 = !((derivedJunctions al).any (containsJunction js)) := by
  show (clipFinalState al js mode).ab = _
  rw [clipFinalState, clipLoop_ab]
  simp [derivedJunctions]

theorem alignedLength_le_of_ptwise (modOp : CigarType)
    (hmod : opConsumesReference modOp = false) :
    ∀ (xs ys : List CigarOp), ys.length = xs.length →
      (∀ k, ys.get? k = xs.get? k ∨
        ∃ c, xs.get? k = some c ∧ ys.get? k = some (CigarOp.mk modOp c.length)) →
      alignedLength ys ≤ alignedLength xs
  | [], ys, hlen, _ => by
    have hy : ys = [] := List.eq_nil_of_length_eq_zero hlen
    subst hy
    exact Nat.le_refl _
  | x :: xs', ys, hlen, hpt => by
    cases ys with
    | nil => simp at hlen
    | cons y ys' =>
      have hlen' : ys'.length = xs'.length := by simpa using hlen
      have hpt' : ∀ k, ys'.get? k = xs'.get? k ∨
          ∃ c, xs'.get? k = some c ∧ ys'.get? k = some (CigarOp.mk modOp c.length) := by
        intro k
        have := hpt (k + 1)
        simpa [List.get?_cons_succ] using this
      have htail := alignedLength_le_of_ptwise modOp hmod xs' ys' hlen' hpt'
      have hhead : (if opConsumesReference y.type then y.length else 0)
          ≤ (if opConsumesReference x.type then x.length else 0) := by
        rcases hpt 0 with h0 | ⟨c, hc1, hc2⟩
        · simp only [List.get?_cons_zero, Option.some.injEq] at h0
          subst h0
          exact Nat.le_refl _
        · simp only [List.get?_cons_zero, Option.some.injEq] at hc1 hc2
          subst hc1
          subst hc2
          simp [hmod]
      calc alignedLength (y :: ys')
          = (if opConsumesReference y.type then y.length else 0) + alignedLength ys' := rfl
        _ ≤ (if opConsumesReference x.type then x.length else 0) + alignedLength xs' :=
            Nat.add_le_add hhead htail
        _ = alignedLength (x :: xs') := rfl

theorem clipStep_skip_untrusted_modCigar (refId : Int) (js : JunctionSys) (modOp : CigarType)
    (orig : List CigarOp) (i : Nat) (op : CigarOp) (st : ClipState)
    (h : op.type = CigarType.RefSkip)
    (hj : ¬ containsJunction js (refId, st.lEnd, st.lEnd + (op.length : Int) - 1) = true) :
    (clipStep refId js modOp orig i op st).modCigar
      = setKinds modOp orig (if st.lastGood then i else st.opStart) i 0 st.modCigar := by
  rw [clipStep_skip_untrusted refId js modOp orig i op st h hj]

/-- C9: `opConsumesQuery` returns true exactly for Match, Insertion, SoftClip,
SeqMatch and SeqMismatch, and `opConsumesReference` returns true exactly for
Match, Deletion, ReferenceSkip, SeqMatch and SeqMismatch; both are functions
of the kind alone. -/
theorem C9_consumes_truth_tables :
    ∀ t : CigarType,
      opConsumesQuery t
        = decide (t = CigarType.M ∨ t = CigarType.Ins ∨ t = CigarType.SoftClip
            ∨ t = CigarType.Equal ∨ t = CigarType.Diff) ∧
      opConsumesReference t
        = decide (t = CigarType.M ∨ t = CigarType.Del ∨ t = CigarType.RefSkip
            ∨ t = CigarType.Equal ∨ t = CigarType.Diff) := by
  intro t
  cases t <;> exact ⟨rfl, rfl⟩

/-- C1 counterexample: for the alignment `[50M, 200N, 30M, 500N, 20M]` at
position 1000 on reference 0, the code derives the junctions
`(0, 1050, 1249)` and `(0, 1080, 1579)`; with a junction index holding
exactly the first of these, Hard-clip mode produces the kind sequence
`[M, N, M, N, H]`, not the `[M, N, H, H, H]` the claim states. -/
theorem C1_counterexample :
    derivedJunctions (BamAlignment.mk 0 1000
        [CigarOp.mk .M 50, CigarOp.mk .RefSkip 200, CigarOp.mk .M 30,
         CigarOp.mk .RefSkip 500, CigarOp.mk .M 20])
      = [(0, 1050, 1249), (0, 1080, 1579)] ∧
    containsJunction [(0, 1050, 1249)] (0, 1050, 1249) = true ∧
    containsJunction [(0, 1050, 1249)] (0, 1080, 1579) = false ∧
    ((clipMSR (BamAlignment.mk 0 1000
        [CigarOp.mk .M 50, CigarOp.mk .RefSkip 200, CigarOp.mk .M 30,
         CigarOp.mk .RefSkip 500, CigarOp.mk .M 20])
        [(0, 1050, 1249)] ClipMode.HARD).1.cigar.map (fun o => o.type)
      = [CigarType.M, CigarType.RefSkip, CigarType.M, CigarType.RefSkip,
         CigarType.HardClip]) ∧
    [CigarType.M, CigarType.RefSkip, CigarType.M, CigarType.RefSkip, CigarType.HardClip]
      ≠ [CigarType.M, CigarType.RefSkip, CigarType.HardClip, CigarType.HardClip,
         CigarType.HardClip] := by
  refine ⟨rfl, rfl, rfl, rfl, ?_⟩
  decide

/-- C1 amended: for the alignment `[50M, 200N, 30M, 500N, 20M]` whose first
derived junction is in the index and whose second is not, Hard-clip mode
leaves the operations up to and including the second ReferenceSkip
untouched and hard-clips only the trailing `20M`, giving kinds
`[M, N, M, N, H]` with every length unchanged, and reports
`allBad = false`. -/
theorem C1_hard_mode_example :
    ((clipMSR (BamAlignment.mk 0 1000
        [CigarOp.mk .M 50, CigarOp.mk .RefSkip 200, CigarOp.mk .M 30,
         CigarOp.mk .RefSkip 500, CigarOp.mk .M 20])
        [(0, 1050, 1249)] ClipMode.HARD).1.cigar
      = [CigarOp.mk .M 50, CigarOp.mk .RefSkip 200, CigarOp.mk .M 30,
         CigarOp.mk .RefSkip 500, CigarOp.mk .HardClip 20]) ∧
    (clipMSR (BamAlignment.mk 0 1000
        [CigarOp.mk .M 50, CigarOp.mk .RefSkip 200, CigarOp.mk .M 30,
         CigarOp.mk .RefSkip 500, CigarOp.mk .M 20])
        [(0, 1050, 1249)] ClipMode.HARD).2 = false := by
  exact ⟨rfl, rfl⟩

/-- C2 counterexample: for operations `[10M, 5N, 10M, 7N]` at position 1000,
the cursor the code accumulates for the second ReferenceSkip excludes the
first skip's length, so the second derived junction is `(0, 1020, 1026)`;
the claim's cursor (all reference-consuming lengths, ReferenceSkip
included) would give start `1025` and junction `(0, 1025, 1031)`. -/
theorem C2_counterexample :
    (derivedJunctionsAux 0 1000
        [CigarOp.mk .M 10, CigarOp.mk .RefSkip 5, CigarOp.mk .M 10,
         CigarOp.mk .RefSkip 7]).get? 1 = some (0, 1020, 1026) ∧
    (1000 + specRefAdvance [CigarOp.mk .M 10, CigarOp.mk .RefSkip 5, CigarOp.mk .M 10]
      = (1025 : Int)) ∧
    ¬ ((derivedJunctionsAux 0 1000
        [CigarOp.mk .M 10, CigarOp.mk .RefSkip 5, CigarOp.mk .M 10,
         CigarOp.mk .RefSkip 7]).get? 1 = some (0, 1025, 1031)) := by
  refine ⟨rfl, rfl, ?_⟩
  decide

/-- C2 amended: the junction derived at the k-th ReferenceSkip has start
equal to the position plus the sum of the lengths of the preceding
reference-consuming operations other than ReferenceSkip (the skip branch
never advances the cursor), and end equal to start plus the skip's length
minus 1; both the containment check and the clipping engine evaluate
exactly these derived junctions. -/
theorem C2_cursor_formula :
    (∀ (refId lEnd : Int) (pre : List CigarOp) (op : CigarOp) (post : List CigarOp),
      op.type = CigarType.RefSkip →
      (derivedJunctionsAux refId lEnd (pre ++ op :: post)).get? (skipCount pre)
        = some (refId, lEnd + refAdvance pre,
                lEnd + refAdvance pre + (op.length : Int) - 1)) ∧
    (∀ (al : BamAlignment) (js : JunctionSys),
      containsJunctionInSystem al js = (derivedJunctions al).any (containsJunction js)) ∧
    (∀ (al : BamAlignment) (js : JunctionSys) (mode : ClipMode),
      (clipMSR al js mode).2 = !((derivedJunctions al).any (containsJunction js))) :=
  ⟨fun refId lEnd pre op post h => derivedJunctionsAux_nth refId pre lEnd op post h,
   fun al js => containsAux_eq_any al.refId js al.cigar al.position,
   fun al js mode => clipMSR_allBad_eq al js mode⟩

/-- Witness for C2 amended, at the concrete operations `[10M, 5N, 10M]`
followed by a `7N`: the second derived junction (skip index 1) is
`(0, 1020, 1026)`. -/
theorem C2_cursor_formula_witness :
    (derivedJunctionsAux 0 1000
        ([CigarOp.mk .M 10, CigarOp.mk .RefSkip 5, CigarOp.mk .M 10]
          ++ CigarOp.mk .RefSkip 7 :: [])).get? 1 = some (0, 1020, 1026) := by
  have h := C2_cursor_formula.1 0 1000
    [CigarOp.mk .M 10, CigarOp.mk .RefSkip 5, CigarOp.mk .M 10]
    (CigarOp.mk .RefSkip 7) [] rfl
  simpa [skipCount, refAdvance] using h

/-- C3 counterexample: for the single-operation alignment `[5N]` with an
empty junction index in Hard-clip mode, the claim's inclusive range
`[regionStart, i] = [0, 0]` would replace the skip itself with a hard clip,
but the code's loop bound `j < i` excludes index 0, so the output keeps
`5N` unchanged. -/
theorem C3_counterexample :
    (clipMSR (BamAlignment.mk 0 1000 [CigarOp.mk .RefSkip 5]) [] ClipMode.HARD).1.cigar
      = [CigarOp.mk .RefSkip 5] ∧
    CigarOp.mk CigarType.RefSkip 5 ≠ CigarOp.mk CigarType.HardClip 5 := by
  refine ⟨rfl, ?_⟩
  decide

/-- C3 amended: when the junction derived at operation index `i` is
untrusted, the operations in the half-open range `[regionStart, i)` —
excluding the skip itself — are replaced by the clip kind with length taken
from the original at that index, the range starting at `i` (hence empty)
when the previous junction was trusted; after the pass, if the last
junction was untrusted, the trailing half-open range
`[regionStart, operation count)` is replaced the same way, and if it was
trusted the sequence is left as the loop produced it. -/
theorem C3_clip_ranges :
    (∀ (refId : Int) (js : JunctionSys) (modOp : CigarType) (orig : List CigarOp)
        (i : Nat) (op : CigarOp) (st : ClipState),
      op.type = CigarType.RefSkip →
      containsJunction js (refId, st.lEnd, st.lEnd + (op.length : Int) - 1) = false →
      ∀ k, (clipStep refId js modOp orig i op st).modCigar.get? k
        = if (if st.lastGood then i else st.opStart) ≤ k ∧ k < i
          then (st.modCigar.get? k).map
            (fun _ => CigarOp.mk modOp (orig.getD k (CigarOp.mk .M 0)).length)
          else st.modCigar.get? k) ∧
    (∀ (al : BamAlignment) (js : JunctionSys) (mode : ClipMode),
      (clipFinalState al js mode).lastGood = false →
      ∀ k, (clipMSR al js mode).1.cigar.get? k
        = if (clipFinalState al js mode).opStart ≤ k ∧ k < al.cigar.length
          then ((clipFinalState al js mode).modCigar.get? k).map
            (fun _ => CigarOp.mk (modOpFor mode) (al.cigar.getD k (CigarOp.mk .M 0)).length)
          else (clipFinalState al js mode).modCigar.get? k) ∧
    (∀ (al : BamAlignment) (js : JunctionSys) (mode : ClipMode),
      (clipFinalState al js mode).lastGood = true →
      (clipMSR al js mode).1.cigar = (clipFinalState al js mode).modCigar) := by
  refine ⟨?_, ?_, ?_⟩
  · intro refId js modOp orig i op st hop hj k
    have hj' : ¬ containsJunction js (refId, st.lEnd, st.lEnd + (op.length : Int) - 1) = true := by
      simp [hj]
    rw [clipStep_skip_untrusted_modCigar refId js modOp orig i op st hop hj']
    rw [setKinds_get?]
    simp only [Nat.zero_add]
  · intro al js mode hlg k
    have hlg' : ¬ (clipFinalState al js mode).lastGood = true := by simp [hlg]
    rw [clipMSR_cigar_eq, if_neg hlg']
    rw [setKinds_get?]
    simp only [Nat.zero_add]
  · intro al js mode hlg
    rw [clipMSR_cigar_eq, if_pos hlg]

/-- Witness for C3 amended: a step at skip index 1 over `[10M, 5N]` with an
empty index (previous junction untrusted, `regionStart = 0`) hard-clips
exactly index 0 and leaves the skip at index 1 unchanged. -/
theorem C3_clip_ranges_witness :
    (clipStep 0 [] CigarType.HardClip [CigarOp.mk .M 10, CigarOp.mk .RefSkip 5] 1
        (CigarOp.mk .RefSkip 5)
        (ClipState.mk 1010 0 false true
          [CigarOp.mk .M 10, CigarOp.mk .RefSkip 5])).modCigar.get? 0
      = some (CigarOp.mk .HardClip 10) ∧
    (clipStep 0 [] CigarType.HardClip [CigarOp.mk .M 10, CigarOp.mk .RefSkip 5] 1
        (CigarOp.mk .RefSkip 5)
        (ClipState.mk 1010 0 false true
          [CigarOp.mk .M 10, CigarOp.mk .RefSkip 5])).modCigar.get? 1
      = some (CigarOp.mk .RefSkip 5) := by
  have h0 := C3_clip_ranges.1 0 [] CigarType.HardClip
    [CigarOp.mk .M 10, CigarOp.mk .RefSkip 5] 1 (CigarOp.mk .RefSkip 5)
    (ClipState.mk 1010 0 false true [CigarOp.mk .M 10, CigarOp.mk .RefSkip 5]) rfl rfl 0
  have h1 := C3_clip_ranges.1 0 [] CigarType.HardClip
    [CigarOp.mk .M 10, CigarOp.mk .RefSkip 5] 1 (CigarOp.mk .RefSkip 5)
    (ClipState.mk 1010 0 false true [CigarOp.mk .M 10, CigarOp.mk .RefSkip 5]) rfl rfl 1
  constructor
  · simpa using h0
  · simpa using h1

/-- C4: the filtering pipeline routes every incoming alignment as the
claim describes: unspliced reads pass through unchanged to the primary
sink; spliced reads in COMPLETE mode or with a single junction are emitted
unchanged exactly when the containment check succeeds; multiply-spliced
reads in HARD or SOFT mode run the clipping engine, are discarded when
`allBad` holds, and otherwise emit the rewritten copy, plus the rewritten
and original copies to the auxiliary sinks when those are enabled. -/
theorem C4_routing (mode : ClipMode) (saveMSRs : Bool) (js : JunctionSys)
    (al : BamAlignment) :
    (isSplicedRead al = false →
      filterRecord mode saveMSRs js al = [(Sink.primary, al)]) ∧
    (isSplicedRead al = true →
      (mode = ClipMode.COMPLETE ∨ isMultiplySplicedRead al = false) →
      filterRecord mode saveMSRs js al
        = (if containsJunctionInSystem al js then [(Sink.primary, al)] else [])) ∧
    ((mode = ClipMode.HARD ∨ mode = ClipMode.SOFT) → isSplicedRead al = true →
      isMultiplySplicedRead al = true →
      ((clipMSR al js mode).2 = true → filterRecord mode saveMSRs js al = []) ∧
      ((clipMSR al js mode).2 = false →
        filterRecord mode saveMSRs js al
          = (Sink.primary, (clipMSR al js mode).1) ::
              (if saveMSRs then
                [(Sink.modified, (clipMSR al js mode).1), (Sink.unmodified, al)]
               else []))) := by
  refine ⟨?_, ?_, ?_⟩
  · intro h
    simp [filterRecord, h]
  · intro h1 h2
    have hcond : mode = ClipMode.COMPLETE ∨ ¬ isMultiplySplicedRead al = true := by
      rcases h2 with h2 | h2
      · exact Or.inl h2
      · exact Or.inr (by simp [h2])
    rcases hcond with hc | hc
    · simp [filterRecord, h1, hc]
    · simp [filterRecord, h1, hc]
  · intro hm h1 h3
    have hne : ¬ (mode = ClipMode.COMPLETE ∨ ¬ isMultiplySplicedRead al = true) := by
      rcases hm with hm | hm <;> subst hm <;> simp [h3]
    constructor
    · intro hab
      simp only [filterRecord]
      rw [if_pos h1, if_neg hne, if_pos hab]
    · intro hab
      simp only [filterRecord]
      rw [if_pos h1, if_neg hne,
        if_neg (show ¬ (clipMSR al js mode).2 = true by simp [hab])]

/-- Witness for C4: the unspliced single-operation alignment `[5M]` passes
through to the primary sink unchanged. -/
theorem C4_routing_witness :
    filterRecord ClipMode.HARD false [] (BamAlignment.mk 0 0 [CigarOp.mk .M 5])
      = [(Sink.primary, BamAlignment.mk 0 0 [CigarOp.mk .M 5])] :=
  (C4_routing ClipMode.HARD false [] (BamAlignment.mk 0 0 [CigarOp.mk .M 5])).1 rfl

/-- C5: the clipping engine reports `allBad = true` exactly when none of
the junctions derived during its pass is in the junction index, and on the
multiply-spliced HARD/SOFT path an `allBad` alignment produces no write to
any sink. -/
theorem C5_allBad_discard (al : BamAlignment) (js : JunctionSys) (mode : ClipMode)
    (saveMSRs : Bool) :
    ((clipMSR al js mode).2 = true ↔
      ∀ j ∈ derivedJunctions al, containsJunction js j = false) ∧
    (isSplicedRead al = true → isMultiplySplicedRead al = true →
      ¬ mode = ClipMode.COMPLETE → (clipMSR al js mode).2 = true →
      filterRecord mode saveMSRs js al = []) := by
  constructor
  · rw [clipMSR_allBad_eq]
    simp [Bool.not_eq_true', List.any_eq_false]
  · intro h1 h3 hmode hab
    have hne : ¬ (mode = ClipMode.COMPLETE ∨ ¬ isMultiplySplicedRead al = true) := by
      simp [hmode, h3]
    simp only [filterRecord]
    rw [if_pos h1, if_neg hne, if_pos hab]

/-- Witness for C5: the multiply-spliced alignment `[5N, 3M, 6N]` against
an empty junction index has `allBad = true` and produces no writes. -/
theorem C5_allBad_discard_witness :
    filterRecord ClipMode.HARD true []
      (BamAlignment.mk 0 0 [CigarOp.mk .RefSkip 5, CigarOp.mk .M 3, CigarOp.mk .RefSkip 6])
      = [] :=
  (C5_allBad_discard
    (BamAlignment.mk 0 0 [CigarOp.mk .RefSkip 5, CigarOp.mk .M 3, CigarOp.mk .RefSkip 6])
    [] ClipMode.HARD true).2 rfl rfl (by decide) rfl

/-- C6: for every alignment and clip mode, the clipping engine's output has
the same operation count as the input and the same length at every
operation index, and the other alignment fields of the returned copy are
those of the input; the engine is a pure function returning a fresh value,
so the input itself is untouched. -/
theorem C6_shape_preserved (al : BamAlignment) (js : JunctionSys) (mode : ClipMode) :
    (clipMSR al js mode).1.cigar.length = al.cigar.length ∧
    (∀ k, ((clipMSR al js mode).1.cigar.get? k).map CigarOp.length
      = (al.cigar.get? k).map CigarOp.length) ∧
    (clipMSR al js mode).1.refId = al.refId ∧
    (clipMSR al js mode).1.position = al.position := by
  refine ⟨clipMSR_cigar_len al js mode, ?_, rfl, rfl⟩
  intro k
  rcases clipMSR_cigar_ptwise al js mode k with h | ⟨c, hc1, hc2⟩
  · rw [h]
  · rw [hc1, hc2]
    rfl

/-- C7 counterexample: for the alignment `[10M, 5N, 10M, 6N, 10M]` with an
empty junction index in Hard-clip mode, every match segment is rewritten
to a hard clip, so the sum of reference-consuming lengths falls from 41 to
11 (only the two skips remain reference-consuming). -/
theorem C7_counterexample :
    alignedLength ((clipMSR (BamAlignment.mk 0 1000
        [CigarOp.mk .M 10, CigarOp.mk .RefSkip 5, CigarOp.mk .M 10,
         CigarOp.mk .RefSkip 6, CigarOp.mk .M 10]) [] ClipMode.HARD).1.cigar) = 11 ∧
    alignedLength [CigarOp.mk .M 10, CigarOp.mk .RefSkip 5, CigarOp.mk .M 10,
         CigarOp.mk .RefSkip 6, CigarOp.mk .M 10] = 41 ∧
    (11 : Nat) ≠ 41 := by
  refine ⟨rfl, rfl, ?_⟩
  decide

/-- C7 amended: in Hard and Soft clip modes the substituted kind consumes
no reference, so the sum of reference-consuming operation lengths of the
clipping engine's output is at most that of the input; it is unchanged
only when no reference-consuming operation was rewritten. -/
theorem C7_aligned_length_le (al : BamAlignment) (js : JunctionSys) (mode : ClipMode)
    (h : mode = ClipMode.HARD ∨ mode = ClipMode.SOFT) :
    alignedLength (clipMSR al js mode).1.cigar ≤ alignedLength al.cigar := by
  have hmod : opConsumesReference (modOpFor mode) = false := by
    rcases h with h | h <;> subst h <;> rfl
  exact alignedLength_le_of_ptwise (modOpFor mode) hmod al.cigar
    (clipMSR al js mode).1.cigar (clipMSR_cigar_len al js mode)
    (clipMSR_cigar_ptwise al js mode)

/-- Witness for C7 amended, at the alignment `[10M, 5N, 10M]` with an empty
index in Hard mode. -/
theorem C7_aligned_length_le_witness :
    alignedLength ((clipMSR (BamAlignment.mk 0 1000
        [CigarOp.mk .M 10, CigarOp.mk .RefSkip 5, CigarOp.mk .M 10])
        [] ClipMode.HARD).1.cigar)
      ≤ alignedLength [CigarOp.mk .M 10, CigarOp.mk .RefSkip 5, CigarOp.mk .M 10] :=
  C7_aligned_length_le (BamAlignment.mk 0 1000
    [CigarOp.mk .M 10, CigarOp.mk .RefSkip 5, CigarOp.mk .M 10]) [] ClipMode.HARD
    (Or.inl rfl)

/-- C8: the containment check returns true exactly when some derived
junction is in the junction index; in particular it is insensitive to
whatever operations follow a prefix on which it already returns true
(the loop returns at the first hit), and it returns false only after the
full walk finds no hit. The embedding is a pure function of the alignment,
which it does not modify. -/
theorem C8_contains_characterization :
    (∀ (al : BamAlignment) (js : JunctionSys),
      containsJunctionInSystem al js = true ↔
        ∃ j ∈ derivedJunctions al, containsJunction js j = true) ∧
    (∀ (refId : Int) (js : JunctionSys) (lEnd : Int) (ops₁ ops₂ : List CigarOp),
      containsAux refId js lEnd ops₁ = true →
      containsAux refId js lEnd (ops₁ ++ ops₂) = true) := by
  constructor
  · intro al js
    rw [show containsJunctionInSystem al js
      = (derivedJunctions al).any (containsJunction js)
      from containsAux_eq_any al.refId js al.cigar al.position]
    simp [List.any_eq_true]
  · intro refId js lEnd ops₁ ops₂ h
    exact containsAux_append_of_true refId js ops₁ lEnd ops₂ h

/-- Witness for C8: a prefix `[10M, 5N]` whose junction `(0, 1010, 1014)`
is in the index keeps the check true after appending another operation. -/
theorem C8_contains_characterization_witness :
    containsAux 0 [(0, 1010, 1014)] 1000
      ([CigarOp.mk .M 10, CigarOp.mk .RefSkip 5] ++ [CigarOp.mk .M 99]) = true :=
  C8_contains_characterization.2 0 [(0, 1010, 1014)] 1000
    [CigarOp.mk .M 10, CigarOp.mk .RefSkip 5] [CigarOp.mk .M 99] rfl

/-- C10: the clipping engine never changes a ReferenceSkip operation: every
operation whose kind is ReferenceSkip in the input is returned unchanged at
the same index, because every rewritten range excludes the skip evaluated
at each step and the trailing range starts after the last evaluated
skip. -/
theorem C10_refskips_never_clipped (al : BamAlignment) (js : JunctionSys)
    (mode : ClipMode) :
    ∀ k c, al.cigar.get? k = some c → c.type = CigarType.RefSkip →
      (clipMSR al js mode).1.cigar.get? k = some c :=
  clipMSR_skip_kept al js mode

/-- Witness for C10: in the all-bad clip of `[10M, 5N, 3M]`, the skip at
index 1 survives unchanged. -/
theorem C10_refskips_never_clipped_witness :
    (clipMSR (BamAlignment.mk 0 1000
        [CigarOp.mk .M 10, CigarOp.mk .RefSkip 5, CigarOp.mk .M 3])
        [] ClipMode.HARD).1.cigar.get? 1 = some (CigarOp.mk .RefSkip 5) :=
  C10_refskips_never_clipped (BamAlignment.mk 0 1000
      [CigarOp.mk .M 10, CigarOp.mk .RefSkip 5, CigarOp.mk .M 3]) [] ClipMode.HARD
    1 (CigarOp.mk .RefSkip 5) rfl rfl

end Portcullis
